/-
  Verification of the packet-processing layer of the quic-go repository:
  a shallow embedding of the header codec (internal/wire/header.go), the
  retransmittable-frame classifier (internal/ackhandler/retransmittable.go),
  and — modelled from the specification where the implementation files are
  not part of the source tree — the packet packer and the packet handler map.

  Bytes are modelled as natural numbers (each < 256 whenever produced by an
  encoder); byte buffers as `List Nat`; fallible parsing as `Except`.
-/
import Mathlib

namespace Quic

/-! ## Parse errors

Mirrors the error values produced by `parseHeaderImpl` and its helpers:
`io.EOF` for every truncated read, `qerr.InvalidPacketHeader` for an
unknown long-header packet type, and `qerr.InvalidVersionNegotiationPacket`
(with reason "empty version list" for an empty list, and the bare error code,
modelled with reason "", for a misaligned list). -/
inductive PErr where
  | eof : PErr
  | invalidPacketHeader : Nat → PErr
  | invalidVersionNegotiation : String → PErr
deriving DecidableEq

deriving instance DecidableEq for Except

/-! ## Byte-level reader primitives

These model the reader helpers the header codec consumes
(`bytes.Reader.ReadByte`, `utils.BigEndian.ReadUint32`,
`protocol.ReadConnectionID`, `utils.ReadVarInt`,
`utils.ReadVarIntPacketNumber`): each reads from the front of a byte list
and fails with `PErr.eof` when the buffer is exhausted early. -/

/-- `ReadByte`: one byte from the front, `eof` on empty input. -/
def readByte : List Nat → Except PErr (Nat × List Nat)
  | [] => .error .eof
  | b :: r => .ok (b, r)

/-- `utils.BigEndian.ReadUint32`: four bytes, big endian. -/
def readUint32 : List Nat → Except PErr (Nat × List Nat)
  | b0 :: b1 :: b2 :: b3 :: r => .ok ((((b0 * 256 + b1) * 256 + b2) * 256 + b3), r)
  | _ => .error .eof

/-- `protocol.ReadConnectionID`: exactly `n` bytes, `eof` if fewer remain. -/
def readConnectionID (n : Nat) (b : List Nat) : Except PErr (List Nat × List Nat) :=
  if b.length < n then .error .eof else .ok (b.take n, b.drop n)

/-- `utils.ReadVarInt`: the top two bits of the first byte select a
1-, 2-, 4- or 8-byte encoding; the remaining bits are value bits. -/
def readVarInt : List Nat → Except PErr (Nat × List Nat)
  | [] => .error .eof
  | b0 :: r =>
    if b0 / 64 = 0 then .ok (b0 % 64, r)
    else if b0 / 64 = 1 then
      match r with
      | b1 :: r1 => .ok ((b0 % 64) * 256 + b1, r1)
      | [] => .error .eof
    else if b0 / 64 = 2 then
      match r with
      | b1 :: b2 :: b3 :: r3 =>
        .ok ((((b0 % 64) * 256 + b1) * 256 + b2) * 256 + b3, r3)
      | _ => .error .eof
    else
      match r with
      | b1 :: b2 :: b3 :: b4 :: b5 :: b6 :: b7 :: r7 =>
        .ok ((((((((b0 % 64) * 256 + b1) * 256 + b2) * 256 + b3) * 256 + b4)
              * 256 + b5) * 256 + b6) * 256 + b7, r7)
      | _ => .error .eof

/-- `utils.ReadVarIntPacketNumber`: the packet number is self-delimiting;
returns the value, its encoded length in bytes, and the rest. -/
def readVarIntPacketNumber : List Nat → Except PErr (Nat × Nat × List Nat)
  | [] => .error .eof
  | b0 :: r =>
    if b0 < 128 then .ok (b0, 1, r)
    else if b0 < 192 then
      match r with
      | b1 :: r1 => .ok ((b0 % 64) * 256 + b1, 2, r1)
      | [] => .error .eof
    else
      match r with
      | b1 :: b2 :: b3 :: r3 =>
        .ok ((((b0 % 64) * 256 + b1) * 256 + b2) * 256 + b3, 4, r3)
      | _ => .error .eof

/-! ## Encoders (used by the composer and by the theorems' constructions) -/

/-- `utils.VarIntLen`: number of bytes of the variable-length-integer
encoding of `x`. -/
def varIntLen (x : Nat) : Nat :=
  if x < 64 then 1 else if x < 16384 then 2 else if x < 1073741824 then 4 else 8

/-- `utils.WriteVarInt`: the variable-length-integer encoding of `x`
(valid for `x < 2 ^ 62`). -/
def varIntEnc (x : Nat) : List Nat :=
  if x < 64 then [x]
  else if x < 16384 then [64 + x / 256, x % 256]
  else if x < 1073741824 then
    [128 + x / 16777216, x / 65536 % 256, x / 256 % 256, x % 256]
  else
    [192 + x / 72057594037927936, x / 281474976710656 % 256,
     x / 1099511627776 % 256, x / 4294967296 % 256, x / 16777216 % 256,
     x / 65536 % 256, x / 256 % 256, x % 256]

/-- Big-endian 4-byte encoding of `v` (valid for `v < 2 ^ 32`). -/
def be32 (v : Nat) : List Nat :=
  [v / 16777216 % 256, v / 65536 % 256, v / 256 % 256, v % 256]

/-! ## Packet type constants (internal/protocol) -/

def PacketTypeInitial : Nat := 0x7f
def PacketTypeRetry : Nat := 0x7e
def PacketTypeHandshake : Nat := 0x7d
def PacketType0RTT : Nat := 0x7c

/-! ## The header codec (internal/wire/header.go) -/

/-- The version independent part of the header (struct `Header`); the Go
field `Type` is called `PacketType` here because `Type` is a Lean keyword. -/
structure Header where
  Version : Nat := 0
  SrcConnectionID : List Nat := []
  DestConnectionID : List Nat := []
  IsLongHeader : Bool := false
  PacketType : Nat := 0
  Length : Nat := 0
  Token : List Nat := []
  SupportedVersions : List Nat := []
  OrigDestConnectionID : List Nat := []
  typeByte : Nat := 0
deriving DecidableEq

/-- `decodeSingleConnIDLen`: nibble 0 encodes length 0, a nonzero nibble
`enc` encodes length `enc + 3`. -/
def decodeSingleConnIDLen (enc : Nat) : Nat :=
  if enc = 0 then 0 else enc + 3

/-- `decodeConnIDLen`: high nibble is the destination connection-ID length,
low nibble the source connection-ID length. -/
def decodeConnIDLen (enc : Nat) : Nat × Nat :=
  (decodeSingleConnIDLen (enc >>> 4), decodeSingleConnIDLen (enc &&& 0xf))

/-- `parseVersionNegotiationPacket`'s reading loop: zero or more 4-byte
big-endian version numbers; a nonempty remainder that is not a multiple of
4 bytes yields the bare `InvalidVersionNegotiationPacket` error. -/
def parseVNVersions : List Nat → Except PErr (List Nat)
  | [] => .ok []
  | b0 :: b1 :: b2 :: b3 :: rest =>
    match parseVNVersions rest with
    | .ok vs => .ok ((((b0 * 256 + b1) * 256 + b2) * 256 + b3) :: vs)
    | .error e => .error e
  | _ => .error (.invalidVersionNegotiation "")

/-- `parseVersionNegotiationPacket`: an empty version list is an error;
otherwise read the whole remaining buffer as 4-byte versions. -/
def parseVersionNegotiationPacket (h : Header) (b : List Nat) :
    Except PErr (Header × List Nat) :=
  match b with
  | [] => .error (.invalidVersionNegotiation "empty version list")
  | _ =>
    match parseVNVersions b with
    | .ok vs => .ok ({ h with SupportedVersions := vs }, [])
    | .error e => .error e

/-- The tail of `parseLongHeader` once version and connection IDs are in
the header: either the version-negotiation path (version 0), the
invariant-only path (unsupported version), or the typed path with the
Retry / Initial specifics and the `Length` field. -/
def parseLongHeaderAfterIDs (supported : List Nat) (h : Header)
    (b4 : List Nat) : Except PErr (Header × List Nat) :=
  if h.Version = 0 then parseVersionNegotiationPacket h b4
  else if supported.contains h.Version = false then .ok (h, b4)
  else
    let ty := h.typeByte % 128
    if ty ≠ PacketTypeInitial ∧ ty ≠ PacketTypeRetry ∧
        ty ≠ PacketType0RTT ∧ ty ≠ PacketTypeHandshake then
      .error (.invalidPacketHeader ty)
    else
      let h := { h with PacketType := ty }
      if ty = PacketTypeRetry then
        match b4 with
        | [] => .error .eof
        | odcilByte :: b5 =>
          let odcil := decodeSingleConnIDLen (odcilByte &&& 0xf)
          match readConnectionID odcil b5 with
          | .error e => .error e
          | .ok (odcid, b6) =>
            .ok ({ h with OrigDestConnectionID := odcid, Token := b6 }, [])
      else
        let afterToken : Except PErr (Header × List Nat) :=
          if ty = PacketTypeInitial then
            match readVarInt b4 with
            | .error e => .error e
            | .ok (tokenLen, b5) =>
              if b5.length < tokenLen then .error .eof
              else .ok ({ h with Token := b5.take tokenLen }, b5.drop tokenLen)
          else .ok (h, b4)
        match afterToken with
        | .error e => .error e
        | .ok (h, b6) =>
          match readVarInt b6 with
          | .error e => .error e
          | .ok (pl, b7) => .ok ({ h with Length := pl }, b7)

/-- `parseLongHeader`, given the already-consumed first byte: version,
connection-ID-length byte, both connection IDs; then
`parseLongHeaderAfterIDs`. The list of supported versions is passed
explicitly (the source reads the package-level
`protocol.SupportedVersions`). -/
def parseLongHeader (supported : List Nat) (h : Header) (b : List Nat) :
    Except PErr (Header × List Nat) :=
  match readUint32 b with
  | .error e => .error e
  | .ok (v, b1) =>
    match b1 with
    | [] => .error .eof
    | connIDLenByte :: b2 =>
      let dcil := (decodeConnIDLen connIDLenByte).1
      let scil := (decodeConnIDLen connIDLenByte).2
      match readConnectionID dcil b2 with
      | .error e => .error e
      | .ok (dcid, b3) =>
        match readConnectionID scil b3 with
        | .error e => .error e
        | .ok (scid, b4) =>
          parseLongHeaderAfterIDs supported
            { h with
              Version := v
              DestConnectionID := dcid
              SrcConnectionID := scid } b4

/-- `parseShortHeader`: a fixed-length destination connection ID of the
caller-supplied length. -/
def parseShortHeader (shortHeaderConnIDLen : Nat) (h : Header) (b : List Nat) :
    Except PErr (Header × List Nat) :=
  match readConnectionID shortHeaderConnIDLen b with
  | .error e => .error e
  | .ok (cid, r) => .ok ({ h with DestConnectionID := cid }, r)

/-- `parseHeaderImpl`: read the type byte; its high bit selects the long or
the short header shape. Returns the parsed header together with the bytes
not consumed by the header. -/
def parseHeaderImpl (supported : List Nat) (shortHeaderConnIDLen : Nat)
    (b : List Nat) : Except PErr (Header × List Nat) :=
  match b with
  | [] => .error .eof
  | typeByte :: r =>
    let h : Header := { typeByte := typeByte, IsLongHeader := 128 ≤ typeByte % 256 }
    if 128 ≤ typeByte % 256 then parseLongHeader supported h r
    else parseShortHeader shortHeaderConnIDLen h r

/-! ## Version negotiation composer -/

/-- Modelled from the spec: the reserved ("greased") version number the
composer appends to the supported-version list to discourage protocol
ossification (the source draws a random version of the reserved shape;
the model fixes one such value). -/
def reservedVersion : Nat := 0x1a2a3a4a

/-- Modelled from the spec: the inverse of `decodeSingleConnIDLen` —
length 0 is encoded as nibble 0, a length `n` with `4 ≤ n ≤ 18` as
nibble `n - 3` (lengths 1, 2, 3 are unrepresentable). -/
def encodeSingleConnIDLen (n : Nat) : Nat :=
  if n = 0 then 0 else n - 3

/-- Modelled from the spec: the connection-ID-length byte, destination
length in the high nibble and source length in the low nibble. -/
def encodeConnIDLen (destLen srcLen : Nat) : Nat :=
  16 * encodeSingleConnIDLen destLen + encodeSingleConnIDLen srcLen

/-- Each version as 4 bytes big-endian, concatenated. -/
def encodeVersions : List Nat → List Nat
  | [] => []
  | v :: vs => be32 v ++ encodeVersions vs

/-- Modelled from the spec: `composeVersionNegotiation` (the composer is
not part of the source tree) — a long-header-shaped datagram with version
field 0, nibble-encoded connection-ID lengths, each supported version as
4 bytes big-endian, plus one additional reserved version number appended. -/
def composeVersionNegotiation (dest src : List Nat) (versions : List Nat) :
    List Nat :=
  0x80 :: (be32 0 ++ [encodeConnIDLen dest.length src.length] ++ dest ++ src
    ++ encodeVersions (versions ++ [reservedVersion]))

/-! ## Frames and the retransmittable-frame classifier
(internal/ackhandler/retransmittable.go)

The wire-frame kinds (`wire.Frame` implementations) are embedded as a
tagged union; their serialized sizes (each kind's `Length` method, frame
serialization is not part of the source tree) are modelled from the spec's
wire layout, using variable-length-integer field encodings. -/

/-- `wire.StreamFrame`. -/
structure StreamFrame where
  StreamID : Nat
  Offset : Nat
  DataLenPresent : Bool
  Data : List Nat
deriving DecidableEq

/-- The frame kinds the tests and the packer exercise. -/
inductive Frame where
  | ack : List (Nat × Nat) → Frame
  | ping : Frame
  | stream : StreamFrame → Frame
  | crypto : Nat → List Nat → Frame
  | maxData : Nat → Frame
  | maxStreamData : Nat → Nat → Frame
  | resetStream : Nat → Nat → Nat → Frame
  | connectionClose : Nat → List Nat → Frame
deriving DecidableEq

/-- `isFrameRetransmittable`: false exactly for ACK frames. -/
def isFrameRetransmittable (f : Frame) : Bool :=
  match f with
  | .ack _ => false
  | _ => true

/-- `stripNonRetransmittableFrames`: a new list with all
non-retransmittable frames deleted. -/
def stripNonRetransmittableFrames : List Frame → List Frame
  | [] => []
  | f :: fs =>
    if isFrameRetransmittable f then f :: stripNonRetransmittableFrames fs
    else stripNonRetransmittableFrames fs

/-- `HasRetransmittableFrames`: true if at least one frame is
retransmittable (the source's loop returns at the first hit). -/
def HasRetransmittableFrames : List Frame → Bool
  | [] => false
  | f :: fs => if isFrameRetransmittable f then true else HasRetransmittableFrames fs

/-- Modelled from the spec: the serialized size of a STREAM frame's header
(type byte, stream ID, offset when nonzero, and the data-length marker when
present). -/
def streamHeaderLen (sf : StreamFrame) (withDataLen : Bool) : Nat :=
  1 + varIntLen sf.StreamID + (if sf.Offset = 0 then 0 else varIntLen sf.Offset)
    + (if withDataLen then varIntLen sf.Data.length else 0)

/-- Modelled from the spec: every frame kind's serialized size
(`Frame.Length`). -/
def frameLength (f : Frame) : Nat :=
  match f with
  | .ack ranges => 2 + (ranges.map (fun r => varIntLen r.1 + varIntLen r.2)).sum
  | .ping => 1
  | .stream sf => streamHeaderLen sf sf.DataLenPresent + sf.Data.length
  | .crypto off data => 1 + varIntLen off + varIntLen data.length + data.length
  | .maxData off => 1 + varIntLen off
  | .maxStreamData sid off => 1 + varIntLen sid + varIntLen off
  | .resetStream sid _ off => 1 + varIntLen sid + 2 + varIntLen off
  | .connectionClose _ reason => 3 + varIntLen reason.length + reason.length

/-- Total serialized size of a frame list. -/
def framesLen (fs : List Frame) : Nat := (fs.map frameLength).sum

/-! ## The packet packer

The packer implementation is not part of the source tree; the functions
below are modelled from the spec (section 4.4): budget-driven frame
accumulation, STREAM-frame splitting, the defensive "packet too large"
failure, the PING-insertion counter and the monotonic size negotiation. -/

/-- `protocol.MinInitialPacketSize`. -/
def MinInitialPacketSize : Nat := 1200

/-- Modelled from the spec: the configured maximum consecutive count of
packets containing only a non-retransmittable ACK
(`protocol.MaxNonRetransmittableAcks`). -/
def MaxNonRetransmittableAcks : Nat := 19

/-- One assembled outbound packet: header size, packed frames, payload
size and sealing overhead; `rawLen` is its serialized datagram length. -/
structure PackedPacket where
  headerLen : Nat
  frames : List Frame
  payloadLen : Nat
  sealOverhead : Nat
deriving DecidableEq

/-- Serialized length of a packed packet. -/
def PackedPacket.rawLen (p : PackedPacket) : Nat :=
  p.headerLen + p.payloadLen + p.sealOverhead

/-- A stream frame packed mid-packet carries its data-length marker. -/
def markStream (f : Frame) : Frame :=
  match f with
  | .stream sf => .stream { sf with DataLenPresent := true }
  | f => f

/-- The last frame of a packet, when a stream frame, drops its
data-length marker. -/
def setNoDataLen (f : Frame) : Frame :=
  match f with
  | .stream sf => .stream { sf with DataLenPresent := false }
  | f => f

/-- Finalizing a packet's frame list: the last stream frame loses its
data-length marker. -/
def finalizePacket : List Frame → List Frame
  | [] => []
  | [f] => [setNoDataLen f]
  | f :: fs => f :: finalizePacket fs

/-- The fuel `packRetransmission` hands to its loop: every loop step either
consumes a frame, strictly shrinks the head stream frame's data, or empties
a nonempty accumulator, so this weight bounds the number of steps. -/
def frameWeight (f : Frame) : Nat :=
  match f with
  | .stream sf => sf.Data.length + 2
  | _ => 2

/-- Modelled from the spec: the accumulation loop of `packRetransmission` —
frames are accumulated into the current packet while they fit the budget;
a STREAM frame too large to fit is split at a byte boundary (the first
fragment fills the current packet exactly); when the accumulator overflows
the budget the current packet is finalized and a new one started; a frame
that cannot fit even into an empty packet raises the defensive
"packet too large" failure. The first argument is fuel, always supplied
large enough that the exhaustion arm is unreachable. -/
def packRetrLoop (budget : Nat) :
    Nat → List Frame → List Frame → Nat → Except String (List (List Frame))
  | 0, _, _, _ => .error "fuel exhausted"
  | _ + 1, [], cur, _ => .ok (if cur.isEmpty then [] else [finalizePacket cur])
  | fuel + 1, f :: rest, cur, curLen =>
    if curLen + frameLength (markStream f) ≤ budget then
      packRetrLoop budget fuel rest (cur ++ [markStream f])
        (curLen + frameLength (markStream f))
    else
      match f with
      | .stream sf =>
        if streamHeaderLen sf false < budget - curLen ∧
            budget - curLen - streamHeaderLen sf false < sf.Data.length then
          let n := budget - curLen - streamHeaderLen sf false
          let frag : StreamFrame :=
            { sf with DataLenPresent := false, Data := sf.Data.take n }
          let sfRest : StreamFrame :=
            { sf with Offset := sf.Offset + n, Data := sf.Data.drop n }
          match packRetrLoop budget fuel (.stream sfRest :: rest) [] 0 with
          | .ok ps => .ok (finalizePacket (cur ++ [.stream frag]) :: ps)
          | .error e => .error e
        else if cur.isEmpty then
          if streamHeaderLen sf false + sf.Data.length ≤ budget then
            match packRetrLoop budget fuel rest [] 0 with
            | .ok ps => .ok ([.stream { sf with DataLenPresent := false }] :: ps)
            | .error e => .error e
          else .error "PacketPacker BUG: packet too large"
        else
          match packRetrLoop budget fuel (f :: rest) [] 0 with
          | .ok ps => .ok (finalizePacket cur :: ps)
          | .error e => .error e
      | _ =>
        if cur.isEmpty then .error "PacketPacker BUG: packet too large"
        else
          match packRetrLoop budget fuel (f :: rest) [] 0 with
          | .ok ps => .ok (finalizePacket cur :: ps)
          | .error e => .error e

/-- Modelled from the spec: `packRetransmission` re-frames a previously
sent packet's frame list into one or more new packets at the same
encryption level, each within the maximum datagram size. -/
def packRetransmission (maxPacketSize sealOverhead headerLen : Nat)
    (frames : List Frame) : Except String (List PackedPacket) :=
  match packRetrLoop (maxPacketSize - sealOverhead - headerLen)
      ((frames.map frameWeight).sum + 2) frames [] 0 with
  | .ok pss => .ok (pss.map (fun fs => ⟨headerLen, fs, framesLen fs, sealOverhead⟩))
  | .error e => .error e

/-- Modelled from the spec: `packPacket` — assembles the frames pulled from
the ACK, control, crypto and stream sources into one packet; pads the first
client Initial packet to the protocol minimum; produces nothing when no
frame was added; and refuses (the defensive `writeAndSealPacket` check)
to return a packet larger than the maximum datagram size. -/
def packPacket (maxPacketSize sealOverhead headerLen : Nat)
    (pulled : List Frame) (padToInitialMin : Bool) :
    Except String (Option PackedPacket) :=
  if pulled.isEmpty then .ok none
  else
    let payload := framesLen pulled
    let payload :=
      if padToInitialMin &&
          decide (headerLen + payload + sealOverhead < MinInitialPacketSize) then
        MinInitialPacketSize - headerLen - sealOverhead
      else payload
    if maxPacketSize < headerLen + payload + sealOverhead then
      .error "PacketPacker BUG: packet too large"
    else .ok (some ⟨headerLen, pulled, payload, sealOverhead⟩)

/-- Modelled from the spec: `handleTransportParameters` may only decrease
the working maximum datagram size, never increase it. -/
def handleTransportParameters (maxPacketSize peerMaxPacketSize : Nat) : Nat :=
  min maxPacketSize peerMaxPacketSize

/-- Modelled from the spec: step 9 of `packPacket` — if the packet would
contain only a non-retransmittable ACK and that has now happened for the
configured maximum consecutive count, force in a PING frame; reset the
counter whenever any other retransmittable frame is sent. Returns the
frames actually packed together with the updated counter; an empty pull
produces no packet and leaves the counter unchanged. -/
def pingAdjust (maxAcks counter : Nat) (pulled : List Frame) :
    List Frame × Nat :=
  if pulled.isEmpty then (pulled, counter)
  else if HasRetransmittableFrames pulled then (pulled, 0)
  else if maxAcks ≤ counter then (pulled ++ [.ping], 0)
  else (pulled, counter + 1)

/-- Iterating `packPacket`'s PING logic over successive calls: each round
is the frame list pulled for that call; rounds that pull nothing produce
no packet. Returns the packed frame lists and the final counter. -/
def packRounds (maxAcks : Nat) : Nat → List (List Frame) → List (List Frame) × Nat
  | counter, [] => ([], counter)
  | counter, r :: rs =>
    let step := pingAdjust maxAcks counter r
    let rest := packRounds maxAcks step.2 rs
    (if step.1.isEmpty then rest.1 else step.1 :: rest.1, rest.2)

/-! ## The packet handler map

The handler-map implementation is not part of the source tree; the state
and operations below are modelled from the spec (section 4.3): routing by
destination connection ID, stateless-reset detection by trailing token,
the server fallback, delayed retirement, and the enforcement of the
long-header `Length` field (the spec's invariant that `Length` equals
exactly the count of bytes following it through the end of the packet).
Time is explicit: operations take the current instant as a natural number,
and the retirement timers are modelled by sweeping expired entries at the
start of `handlePacket`. -/

/-- The handler map's state: registered handlers (connection ID bytes to
an abstract handler identifier), reset tokens (token bytes, owning
connection ID, owning handler), pending retirements (connection ID,
expiry instant), the optional server fallback, the configured short-header
connection-ID length and the retirement delay
(`deleteRetiredSessionsAfter`). -/
structure PHMState where
  handlers : List (List Nat × Nat) := []
  resetTokens : List (List Nat × List Nat × Nat) := []
  retired : List (List Nat × Nat) := []
  server : Option Nat := none
  connIDLen : Nat := 0
  delay : Nat := 0
deriving DecidableEq

/-- `Add`: registers ownership of a connection ID. -/
def PHMState.add (s : PHMState) (id : List Nat) (handler : Nat) : PHMState :=
  { s with handlers := s.handlers ++ [(id, handler)] }

/-- `AddWithResetToken`: as `add`, plus indexes the token for
stateless-reset recognition. -/
def PHMState.addWithResetToken (s : PHMState) (id : List Nat) (handler : Nat)
    (token : List Nat) : PHMState :=
  { s with handlers := s.handlers ++ [(id, handler)],
           resetTokens := s.resetTokens ++ [(token, id, handler)] }

/-- `Remove`: deletes the mapping immediately. -/
def PHMState.remove (s : PHMState) (id : List Nat) : PHMState :=
  { s with handlers := s.handlers.filter (fun p => p.1 ≠ id) }

/-- `Retire`: marks the connection ID for deletion after the configured
delay, counted from the current instant. -/
def PHMState.retire (s : PHMState) (id : List Nat) (now : Nat) : PHMState :=
  { s with retired := s.retired ++ [(id, now + s.delay)] }

/-- Whether a retirement of `id` has expired by instant `now`. -/
def retiredExpired (retired : List (List Nat × Nat)) (id : List Nat)
    (now : Nat) : Bool :=
  retired.any (fun e => e.1 = id ∧ e.2 ≤ now)

/-- The retirement timers having fired by instant `now`: expired handler
mappings and their reset tokens are purged. -/
def PHMState.sweep (s : PHMState) (now : Nat) : PHMState :=
  { s with
    handlers := s.handlers.filter (fun p => !retiredExpired s.retired p.1 now),
    resetTokens :=
      s.resetTokens.filter (fun t => !retiredExpired s.retired t.2.1 now) }

/-- First-match association lookup on the handler table. -/
def lookupHandler (handlers : List (List Nat × Nat)) (id : List Nat) :
    Option Nat :=
  match handlers.find? (fun p => p.1 = id) with
  | some p => some p.2
  | none => none

/-- First-match association lookup on the reset-token index. -/
def lookupToken (tokens : List (List Nat × List Nat × Nat))
    (token : List Nat) : Option Nat :=
  match tokens.find? (fun t => t.1 = token) with
  | some t => some t.2.2
  | none => none

/-- Modelled from the spec: the minimum size of a datagram that can carry
a stateless reset (one header byte plus the 16-byte token). -/
def MinStatelessResetSize : Nat := 17

/-- The errors `handlePacket` can return: a wrapped header-parse failure,
the two "unexpected connection ID" shapes, and the two violations of the
long-header `Length` invariant (each naming the actual and the expected
byte counts). -/
inductive PHMErr where
  | parseError : PErr → PHMErr
  | unexpectedConnectionID : List Nat → PHMErr
  | unexpectedShortHeaderConnectionID : List Nat → PHMErr
  | packetLengthTooSmall : Nat → Nat → PHMErr
  | packetLengthSmallerThanPacketNumber : Nat → Nat → PHMErr
deriving DecidableEq

/-- The observable outcome of one `handlePacket` call: delivery to the
registered owner's `handlePacket` (with the payload handed over), delivery
to the server fallback, exactly one `destroy` call with the distinguished
stateless-reset error, or a drop with an error. -/
inductive HandleResult where
  | delivered : Nat → List Nat → HandleResult
  | deliveredToServer : Nat → List Nat → HandleResult
  | destroyed : Nat → String → HandleResult
  | dropped : PHMErr → HandleResult
deriving DecidableEq

/-- Parsing the version-dependent remainder for a routed packet (the
packet number), then enforcing the long-header `Length` field: `Length`
must be at least the packet-number length, the bytes following the
`Length` field must be at least `Length`, and a longer datagram's payload
is cut to exactly `Length` minus the packet-number length bytes. -/
def parseRestAndCheckLength (h : Header) (rest : List Nat) :
    Except PHMErr (List Nat) :=
  match readVarIntPacketNumber rest with
  | .error e => .error (.parseError e)
  | .ok (_, pnLen, payload) =>
    if h.IsLongHeader then
      if h.Length < pnLen then
        .error (.packetLengthSmallerThanPacketNumber h.Length pnLen)
      else if payload.length + pnLen < h.Length then
        .error (.packetLengthTooSmall (payload.length + pnLen) h.Length)
      else .ok (payload.take (h.Length - pnLen))
    else .ok payload

/-- The body of `handlePacket`, on the state the retirement sweep
produced: parse the invariant header (dropping the datagram on failure),
look up the owner by destination connection ID, detect stateless resets by
the trailing 16 bytes when no owner is found, fall back to the server
handler for long-header datagrams, and otherwise drop with an
"unexpected connection ID" error; a routed packet is delivered after the
`Length` enforcement of `parseRestAndCheckLength`. -/
def handlePacketSwept (supported : List Nat) (s : PHMState)
    (data : List Nat) : HandleResult :=
  match parseHeaderImpl supported s.connIDLen data with
  | .error e => .dropped (.parseError e)
  | .ok (h, rest) =>
    match lookupHandler s.handlers h.DestConnectionID with
    | some handler =>
      match parseRestAndCheckLength h rest with
      | .error e => .dropped e
      | .ok payload => .delivered handler payload
    | none =>
      match (if MinStatelessResetSize ≤ data.length then
          lookupToken s.resetTokens (data.drop (data.length - 16))
        else none) with
      | some owner => .destroyed owner "received a stateless reset"
      | none =>
        if h.IsLongHeader then
          match s.server with
          | some srv =>
            match parseRestAndCheckLength h rest with
            | .error e => .dropped e
            | .ok payload => .deliveredToServer srv payload
          | none => .dropped (.unexpectedConnectionID h.DestConnectionID)
        else .dropped (.unexpectedShortHeaderConnectionID h.DestConnectionID)

/-- Modelled from the spec: `handlePacket` — the retirement timers having
fired first (`sweep`), then the routing body `handlePacketSwept`. -/
def handlePacket (supported : List Nat) (s : PHMState) (now : Nat)
    (data : List Nat) : HandleResult :=
  handlePacketSwept supported (s.sweep now) data

/-! ## Concrete fixtures for the retirement-timing claim -/

/-- The connection ID of the retirement scenario. -/
def c2ConnID : List Nat := [1, 2, 3, 4, 5, 6, 7, 8]

/-- The 16-byte reset token registered for `c2ConnID`. -/
def c2Token : List Nat := [1, 2, 3, 4, 5, 6, 7, 8, 9, 10, 11, 12, 13, 14, 15, 16]

/-- A long-header Handshake datagram for `c2ConnID` (supported version
0x01020304, `Length` 1, one-byte packet number). -/
def c2Packet : List Nat := [0xFD, 1, 2, 3, 4, 0x50] ++ c2ConnID ++ [0x01, 0x00]

/-- A short-header-shaped datagram whose trailing 16 bytes are `c2Token`. -/
def c2ResetPacket : List Nat := (0x40 :: List.replicate 50 0) ++ c2Token

/-- The handler map of the retirement scenario: `c2ConnID` registered with
its reset token (short-header connection-ID length 5, retirement delay
`d`), then retired at instant `t0`. -/
def c2State (handler d t0 : Nat) : PHMState :=
  (PHMState.addWithResetToken
    { handlers := [], resetTokens := [], retired := [], server := none,
      connIDLen := 5, delay := d } c2ConnID handler c2Token).retire
    c2ConnID t0

/-! # Supporting lemmas -/

theorem stripNonRetransmittableFrames_eq_filter (fs : List Frame) :
    stripNonRetransmittableFrames fs = fs.filter isFrameRetransmittable := by
  induction fs with
  | nil => rfl
  | cons f fs ih =>
    by_cases h : isFrameRetransmittable f <;>
      simp [stripNonRetransmittableFrames, List.filter_cons, h, ih]

theorem hasRetransmittableFrames_iff (fs : List Frame) :
    HasRetransmittableFrames fs = true ↔
      ∃ f ∈ fs, isFrameRetransmittable f = true := by
  induction fs with
  | nil => simp [HasRetransmittableFrames]
  | cons f fs ih =>
    simp only [HasRetransmittableFrames]
    by_cases h : isFrameRetransmittable f <;>
      simp [h, ih, List.exists_mem_cons_iff]

theorem foldl_handleTransportParameters_le (values : List Nat) :
    ∀ current : Nat, List.foldl handleTransportParameters current values ≤ current := by
  induction values with
  | nil => intro current; simp
  | cons a l ih =>
    intro current
    calc List.foldl handleTransportParameters (handleTransportParameters current a) l
        ≤ handleTransportParameters current a := ih _
      _ ≤ current := min_le_left _ _

theorem pingAdjust_ackOnly_lt (maxAcks counter : Nat) (a : Frame)
    (hack : isFrameRetransmittable a = false) (h : counter < maxAcks) :
    pingAdjust maxAcks counter [a] = ([a], counter + 1) := by
  simp [pingAdjust, HasRetransmittableFrames, hack, Nat.not_le.mpr h]

theorem packRounds_ackOnly (maxAcks : Nat) (a : Frame)
    (hack : isFrameRetransmittable a = false) :
    ∀ (k c : Nat), c + k ≤ maxAcks →
      packRounds maxAcks c (List.replicate k [a]) = (List.replicate k [a], c + k) := by
  intro k
  induction k with
  | zero => intro c _; simp [packRounds]
  | succ k ih =>
    intro c hc
    rw [List.replicate_succ]
    simp only [packRounds, pingAdjust_ackOnly_lt maxAcks c a hack (by omega),
      ih (c + 1) (by omega)]
    simp only [List.isEmpty_cons, List.replicate_succ, Prod.mk.injEq]
    refine ⟨by simp, by omega⟩

theorem packRounds_append (maxAcks : Nat) (xs ys : List (List Frame)) :
    ∀ c : Nat, packRounds maxAcks c (xs ++ ys) =
      ((packRounds maxAcks c xs).1 ++
        (packRounds maxAcks (packRounds maxAcks c xs).2 ys).1,
       (packRounds maxAcks (packRounds maxAcks c xs).2 ys).2) := by
  induction xs with
  | nil => intro c; simp [packRounds]
  | cons r rs ih =>
    intro c
    rcases hpa : pingAdjust maxAcks c r with ⟨fs, c1⟩
    simp only [List.cons_append, packRounds, hpa, List.append_eq]
    by_cases h : fs.isEmpty
    · simpa [h] using ih c1
    · rw [ih c1]
      simp [h]

theorem readUint32_be32 (v : Nat) (hv : v < 4294967296) (r : List Nat) :
    readUint32 (be32 v ++ r) = .ok (v, r) := by
  simp only [be32, List.cons_append, List.nil_append, readUint32]
  have hval : (((v / 16777216 % 256) * 256 + v / 65536 % 256) * 256
      + v / 256 % 256) * 256 + v % 256 = v := by omega
  rw [hval]

theorem readUint32_short (b : List Nat) (h : b.length < 4) :
    readUint32 b = .error .eof := by
  cases b with
  | nil => rfl
  | cons a1 b => cases b with
    | nil => rfl
    | cons a2 b => cases b with
      | nil => rfl
      | cons a3 b => cases b with
        | nil => rfl
        | cons a4 b => simp at h; omega

theorem readConnectionID_append (n : Nat) (id r : List Nat)
    (h : id.length = n) :
    readConnectionID n (id ++ r) = .ok (id, r) := by
  unfold readConnectionID
  rw [if_neg (by simp [List.length_append]; omega), List.take_left' h,
    List.drop_left' h]

theorem readConnectionID_short (n : Nat) (b : List Nat) (h : b.length < n) :
    readConnectionID n b = .error .eof := by
  unfold readConnectionID
  rw [if_pos h]

theorem readVarInt_enc (x : Nat) (hx : x < 4611686018427387904)
    (r : List Nat) : readVarInt (varIntEnc x ++ r) = .ok (x, r) := by
  by_cases h1 : x < 64
  · simp only [varIntEnc, if_pos h1, List.cons_append, List.nil_append,
      readVarInt]
    rw [if_pos (by omega)]
    have : x % 64 = x := Nat.mod_eq_of_lt h1
    rw [this]
  · by_cases h2 : x < 16384
    · simp only [varIntEnc, if_neg h1, if_pos h2, List.cons_append,
        List.nil_append, readVarInt]
      rw [if_neg (by omega), if_pos (by omega)]
      have : (64 + x / 256) % 64 * 256 + x % 256 = x := by omega
      rw [this]
    · by_cases h3 : x < 1073741824
      · simp only [varIntEnc, if_neg h1, if_neg h2, if_pos h3,
          List.cons_append, List.nil_append, readVarInt]
        rw [if_neg (by omega), if_neg (by omega), if_pos (by omega)]
        have : (((128 + x / 16777216) % 64 * 256 + x / 65536 % 256) * 256
            + x / 256 % 256) * 256 + x % 256 = x := by omega
        rw [this]
      · simp only [varIntEnc, if_neg h1, if_neg h2, if_neg h3,
          List.cons_append, List.nil_append, readVarInt]
        rw [if_neg (by omega), if_neg (by omega), if_neg (by omega)]
        have : (((((((192 + x / 72057594037927936) % 64 * 256
            + x / 281474976710656 % 256) * 256 + x / 1099511627776 % 256) * 256
            + x / 4294967296 % 256) * 256 + x / 16777216 % 256) * 256
            + x / 65536 % 256) * 256 + x / 256 % 256) * 256 + x % 256 = x := by
          omega
        rw [this]

theorem length_varIntEnc (x : Nat) : (varIntEnc x).length = varIntLen x := by
  by_cases h1 : x < 64 <;> by_cases h2 : x < 16384 <;>
    by_cases h3 : x < 1073741824 <;> simp [varIntEnc, varIntLen, h1, h2, h3]

theorem readVarInt_enc_take (x : Nat) (j : Nat)
    (hj : j < (varIntEnc x).length) :
    readVarInt ((varIntEnc x).take j) = .error .eof := by
  by_cases h1 : x < 64
  · have : j = 0 := by simp [varIntEnc, if_pos h1] at hj; omega
    subst this
    rfl
  · by_cases h2 : x < 16384
    · simp only [varIntEnc, if_neg h1, if_pos h2] at hj ⊢
      simp only [List.length_cons, List.length_nil] at hj
      interval_cases j
      · rfl
      · simp only [List.take_succ_cons, List.take_zero, readVarInt]
        rw [if_neg (by omega), if_pos (by omega)]
    · by_cases h3 : x < 1073741824
      · simp only [varIntEnc, if_neg h1, if_neg h2, if_pos h3] at hj ⊢
        simp only [List.length_cons, List.length_nil] at hj
        interval_cases j
        · rfl
        all_goals
          simp only [List.take_succ_cons, List.take_zero, readVarInt]
          rw [if_neg (by omega), if_neg (by omega), if_pos (by omega)]
      · simp only [varIntEnc, if_neg h1, if_neg h2, if_neg h3] at hj ⊢
        simp only [List.length_cons, List.length_nil] at hj
        interval_cases j
        · rfl
        all_goals
          simp only [List.take_succ_cons, List.take_zero, readVarInt]
          rw [if_neg (by omega), if_neg (by omega), if_neg (by omega)]

theorem parseVNVersions_encodeVersions (vs : List Nat)
    (h : ∀ v ∈ vs, v < 4294967296) :
    parseVNVersions (encodeVersions vs) = .ok vs := by
  induction vs with
  | nil => rfl
  | cons v vs ih =>
    have hv : v < 4294967296 := h v (by simp)
    simp only [encodeVersions, be32, List.cons_append, List.append_eq,
      List.nil_append, parseVNVersions, ih (fun w hw => h w (by simp [hw]))]
    have hval : ((v / 16777216 % 256 * 256 + v / 65536 % 256) * 256
        + v / 256 % 256) * 256 + v % 256 = v := by omega
    rw [hval]

theorem parseLongHeader_decompose (supported : List Nat) (h0 : Header)
    (v cil : Nat) (dest src tail : List Nat) (hv : v < 4294967296)
    (hdl : dest.length = (decodeConnIDLen cil).1)
    (hsl : src.length = (decodeConnIDLen cil).2) :
    parseLongHeader supported h0 (be32 v ++ cil :: (dest ++ (src ++ tail))) =
      parseLongHeaderAfterIDs supported
        { h0 with
          Version := v
          DestConnectionID := dest
          SrcConnectionID := src } tail := by
  simp only [parseLongHeader, readUint32_be32 v hv,
    readConnectionID_append _ dest _ hdl, readConnectionID_append _ src _ hsl]

theorem decodeSingle_encodeSingle (n : Nat)
    (hn : n = 0 ∨ (4 ≤ n ∧ n ≤ 18)) :
    decodeSingleConnIDLen (encodeSingleConnIDLen n) = n := by
  unfold decodeSingleConnIDLen encodeSingleConnIDLen
  rcases hn with hn | hn <;> split_ifs <;> omega

theorem encodeSingle_le (n : Nat) (hn : n = 0 ∨ (4 ≤ n ∧ n ≤ 18)) :
    encodeSingleConnIDLen n ≤ 15 := by
  unfold encodeSingleConnIDLen
  rcases hn with hn | hn <;> split_ifs <;> omega

theorem decodeConnIDLen_encodeConnIDLen (n m : Nat)
    (hn : n = 0 ∨ (4 ≤ n ∧ n ≤ 18)) (hm : m = 0 ∨ (4 ≤ m ∧ m ≤ 18)) :
    decodeConnIDLen (encodeConnIDLen n m) = (n, m) := by
  have h15 : ∀ x : Nat, x &&& 15 = x % 16 := by
    intro x
    have := Nat.and_pow_two_sub_one_eq_mod x 4
    norm_num at this
    exact this
  have hsr : ∀ x : Nat, x >>> 4 = x / 16 := by
    intro x
    have := Nat.shiftRight_eq_div_pow x 4
    norm_num at this
    exact this
  have hbm : encodeSingleConnIDLen m ≤ 15 := encodeSingle_le m hm
  have hdiv : encodeConnIDLen n m / 16 = encodeSingleConnIDLen n := by
    unfold encodeConnIDLen
    omega
  have hmod : encodeConnIDLen n m % 16 = encodeSingleConnIDLen m := by
    unfold encodeConnIDLen
    omega
  unfold decodeConnIDLen
  rw [h15, hsr, hdiv, hmod, decodeSingle_encodeSingle n hn,
    decodeSingle_encodeSingle m hm]

theorem parseVNP_encodeVersions (h : Header) (v : Nat) (vs : List Nat)
    (hall : ∀ w ∈ v :: vs, w < 4294967296) :
    parseVersionNegotiationPacket h (encodeVersions (v :: vs)) =
      .ok ({ h with SupportedVersions := v :: vs }, []) := by
  have hp := parseVNVersions_encodeVersions (v :: vs) hall
  simp only [encodeVersions, be32, List.cons_append] at hp ⊢
  simp only [parseVersionNegotiationPacket]
  rw [hp]

theorem parseLongHeaderAfterIDs_initial (supported : List Nat) (h : Header)
    (b : List Nat) (hv0 : h.Version ≠ 0) (hsv : h.Version ∈ supported)
    (hty : h.typeByte % 128 = PacketTypeInitial) :
    parseLongHeaderAfterIDs supported h b =
      (match readVarInt b with
       | .error e => .error e
       | .ok (tokenLen, b5) =>
         if b5.length < tokenLen then .error .eof
         else
           match readVarInt (b5.drop tokenLen) with
           | .error e => .error e
           | .ok (pl, b7) =>
             .ok ({ h with
                    PacketType := PacketTypeInitial
                    Token := b5.take tokenLen
                    Length := pl }, b7)) := by
  unfold parseLongHeaderAfterIDs
  rw [if_neg hv0, if_neg (by simp [List.contains, List.elem_eq_mem, hsv])]
  simp only [hty]
  rw [if_neg (by simp [PacketTypeInitial])]
  rw [if_neg (by simp [PacketTypeInitial, PacketTypeRetry])]
  rw [if_pos trivial]
  cases hr : readVarInt b with
  | error e => rfl
  | ok p =>
    rcases p with ⟨tokenLen, b5⟩
    dsimp only
    by_cases hlen : b5.length < tokenLen
    · simp [hlen]
    · cases hr2 : readVarInt (b5.drop tokenLen) with
      | error e => simp [hlen, hr2]
      | ok q => simp [hlen, hr2]

theorem take_append_small {α : Type} (l r : List α) (j : Nat)
    (h : j ≤ l.length) : (l ++ r).take j = l.take j := by
  rw [List.take_append_eq_append_take]
  have h0 : j - l.length = 0 := by omega
  rw [h0]
  simp

theorem take_append_big {α : Type} (l r : List α) (j : Nat)
    (h : l.length ≤ j) : (l ++ r).take j = l ++ r.take (j - l.length) := by
  rw [List.take_append_eq_append_take, List.take_of_length_le h]

/-- Every strict prefix of a well-formed Initial long header (after the
type byte) makes `parseLongHeader` fail with exactly `PErr.eof`. -/
theorem parseLongHeader_initial_take_eof (supported : List Nat) (h0 : Header)
    (v cil tokenLen plen : Nat) (dest src token : List Nat)
    (hv32 : v < 4294967296) (hv0 : v ≠ 0) (hsv : v ∈ supported)
    (hdl : dest.length = (decodeConnIDLen cil).1)
    (hsl : src.length = (decodeConnIDLen cil).2)
    (htk : token.length = tokenLen)
    (htl : tokenLen < 4611686018427387904)
    (hty : h0.typeByte = 0xff)
    (k : Nat)
    (hk : k < (be32 v ++ cil :: (dest ++ (src ++ (varIntEnc tokenLen
      ++ (token ++ varIntEnc plen))))).length) :
    parseLongHeader supported h0 ((be32 v ++ cil :: (dest ++ (src
      ++ (varIntEnc tokenLen ++ (token ++ varIntEnc plen))))).take k) =
      .error .eof := by
  have l4 : (be32 v).length = 4 := by simp [be32]
  simp only [List.length_append, List.length_cons, l4] at hk
  by_cases hk4 : k < 4
  · have h1 : (be32 v ++ cil :: (dest ++ (src ++ (varIntEnc tokenLen
        ++ (token ++ varIntEnc plen))))).take k = (be32 v).take k :=
      take_append_small _ _ k (by omega)
    rw [h1]
    unfold parseLongHeader
    rw [readUint32_short _ (by simp [List.length_take]; omega)]
  · by_cases hk5 : k < 5
    · have hke : k = 4 := by omega
      subst hke
      have h1 : (be32 v ++ cil :: (dest ++ (src ++ (varIntEnc tokenLen
          ++ (token ++ varIntEnc plen))))).take 4 = be32 v ++ [] := by
        rw [take_append_big _ _ 4 (by omega), l4]
        simp
      rw [h1]
      unfold parseLongHeader
      rw [readUint32_be32 v hv32 []]
    · have h1 : (be32 v ++ cil :: (dest ++ (src ++ (varIntEnc tokenLen
          ++ (token ++ varIntEnc plen))))).take k =
          be32 v ++ cil :: ((dest ++ (src ++ (varIntEnc tokenLen
            ++ (token ++ varIntEnc plen)))).take (k - 5)) := by
        rw [take_append_big _ _ k (by omega), l4]
        have h2 : k - 4 = (k - 5) + 1 := by omega
        rw [h2, List.take_succ_cons]
      rw [h1]
      unfold parseLongHeader
      rw [readUint32_be32 v hv32]
      dsimp only
      by_cases hj1 : k - 5 < dest.length
      · have h2 : (dest ++ (src ++ (varIntEnc tokenLen
            ++ (token ++ varIntEnc plen)))).take (k - 5) =
            dest.take (k - 5) := take_append_small _ _ _ (by omega)
        rw [h2, ← hdl,
          readConnectionID_short _ _ (by simp [List.length_take]; omega)]
      · have h2 : (dest ++ (src ++ (varIntEnc tokenLen
            ++ (token ++ varIntEnc plen)))).take (k - 5) =
            dest ++ (src ++ (varIntEnc tokenLen
              ++ (token ++ varIntEnc plen))).take (k - 5 - dest.length) :=
          take_append_big _ _ _ (by omega)
        rw [h2, readConnectionID_append _ dest _ hdl]
        dsimp only
        by_cases hj2 : k - 5 - dest.length < src.length
        · have h3 : (src ++ (varIntEnc tokenLen
              ++ (token ++ varIntEnc plen))).take (k - 5 - dest.length) =
              src.take (k - 5 - dest.length) :=
            take_append_small _ _ _ (by omega)
          rw [h3, ← hsl,
            readConnectionID_short _ _ (by simp [List.length_take]; omega)]
        · have h3 : (src ++ (varIntEnc tokenLen
              ++ (token ++ varIntEnc plen))).take (k - 5 - dest.length) =
              src ++ (varIntEnc tokenLen ++ (token
                ++ varIntEnc plen)).take (k - 5 - dest.length - src.length) :=
            take_append_big _ _ _ (by omega)
          rw [h3, readConnectionID_append _ src _ hsl]
          dsimp only
          rw [parseLongHeaderAfterIDs_initial supported _ _ hv0 hsv
            (by simp [hty, PacketTypeInitial])]
          by_cases hj3 : k - 5 - dest.length - src.length
              < (varIntEnc tokenLen).length
          · have h4 : (varIntEnc tokenLen ++ (token
                ++ varIntEnc plen)).take (k - 5 - dest.length - src.length) =
                (varIntEnc tokenLen).take
                  (k - 5 - dest.length - src.length) :=
              take_append_small _ _ _ (by omega)
            rw [h4, readVarInt_enc_take tokenLen _ hj3]
          · have h4 : (varIntEnc tokenLen ++ (token
                ++ varIntEnc plen)).take (k - 5 - dest.length - src.length) =
                varIntEnc tokenLen ++ (token ++ varIntEnc plen).take
                  (k - 5 - dest.length - src.length
                    - (varIntEnc tokenLen).length) :=
              take_append_big _ _ _ (by omega)
            rw [h4, readVarInt_enc tokenLen htl]
            dsimp only
            by_cases hj4 : k - 5 - dest.length - src.length
                - (varIntEnc tokenLen).length < tokenLen
            · rw [if_pos (by
                simp [List.length_take, List.length_append, htk]
                omega)]
            · rw [if_neg (by
                simp [List.length_take, List.length_append, htk]
                omega)]
              have h5 : (token ++ varIntEnc plen).take
                  (k - 5 - dest.length - src.length
                    - (varIntEnc tokenLen).length) =
                  token ++ (varIntEnc plen).take
                    (k - 5 - dest.length - src.length
                      - (varIntEnc tokenLen).length - token.length) :=
                take_append_big _ _ _ (by omega)
              rw [h5, List.drop_left' htk,
                readVarInt_enc_take plen _ (by omega)]

theorem framesLen_append (a b : List Frame) :
    framesLen (a ++ b) = framesLen a + framesLen b := by
  simp [framesLen]

theorem frameLength_setNoDataLen_le (f : Frame) :
    frameLength (setNoDataLen f) ≤ frameLength f := by
  cases f with
  | stream sf =>
    by_cases h : sf.DataLenPresent <;>
      simp [setNoDataLen, frameLength, streamHeaderLen, h]
  | _ => simp [setNoDataLen]

theorem framesLen_finalizePacket_le (fs : List Frame) :
    framesLen (finalizePacket fs) ≤ framesLen fs := by
  induction fs with
  | nil => simp [finalizePacket]
  | cons f fs ih =>
    cases fs with
    | nil =>
      simpa [finalizePacket, framesLen] using frameLength_setNoDataLen_le f
    | cons g gs =>
      simp only [finalizePacket, framesLen, List.map_cons, List.sum_cons]
        at ih ⊢
      omega

theorem packRetrLoop_packets_le (budget : Nat) :
    ∀ (fuel : Nat) (rem cur : List Frame) (curLen : Nat),
      curLen = framesLen cur → curLen ≤ budget →
      ∀ pss, packRetrLoop budget fuel rem cur curLen = .ok pss →
      ∀ fs ∈ pss, framesLen fs ≤ budget := by
  intro fuel
  induction fuel with
  | zero =>
    intro rem cur curLen _ _ pss h
    simp [packRetrLoop] at h
  | succ fuel ih =>
    intro rem cur curLen hcur hle pss h fs hfs
    cases rem with
    | nil =>
      simp only [packRetrLoop] at h
      by_cases hc : cur.isEmpty
      · simp [hc] at h
        subst h
        simp at hfs
      · simp [hc] at h
        subst h
        simp at hfs
        subst hfs
        exact le_trans (framesLen_finalizePacket_le cur) (hcur ▸ hle)
    | cons f rest =>
      simp only [packRetrLoop] at h
      split at h
      · rename_i hfit
        exact ih rest (cur ++ [markStream f]) _
          (by simp [framesLen_append, framesLen, hcur]) hfit pss h fs hfs
      · rename_i hfit
        cases f
        case stream sf =>
          dsimp only at h
          split at h
          · rename_i hsplit
            split at h
            · rename_i ps hrec
              injection h with h
              subst h
              simp only [List.mem_cons] at hfs
              rcases hfs with hfs | hfs
              · subst hfs
                refine le_trans (framesLen_finalizePacket_le _) ?_
                rw [framesLen_append, ← hcur]
                simp only [framesLen, List.map_cons, List.map_nil,
                  List.sum_cons, List.sum_nil, frameLength, streamHeaderLen,
                  List.length_take, Bool.false_eq_true, if_false]
                  at hsplit ⊢
                omega
              · exact ih _ [] 0 rfl (by omega) ps hrec fs hfs
            · exact absurd h (by simp)
          · rename_i hsplit
            split at h
            · rename_i hc
              split at h
              · rename_i hfitsNoMark
                split at h
                · rename_i ps hrec
                  injection h with h
                  subst h
                  simp only [List.mem_cons] at hfs
                  rcases hfs with hfs | hfs
                  · subst hfs
                    simpa [framesLen, frameLength, streamHeaderLen]
                      using hfitsNoMark
                  · exact ih _ [] 0 rfl (by omega) ps hrec fs hfs
                · exact absurd h (by simp)
              · exact absurd h (by simp)
            · rename_i hc
              split at h
              · rename_i ps hrec
                injection h with h
                subst h
                simp only [List.mem_cons] at hfs
                rcases hfs with hfs | hfs
                · subst hfs
                  exact le_trans (framesLen_finalizePacket_le cur)
                    (hcur ▸ hle)
                · exact ih _ [] 0 rfl (by omega) ps hrec fs hfs
              · exact absurd h (by simp)
        all_goals
          dsimp only at h
          split at h
          · exact absurd h (by simp)
          · rename_i hc
            split at h
            · rename_i ps hrec
              injection h with h
              subst h
              simp only [List.mem_cons] at hfs
              rcases hfs with hfs | hfs
              · subst hfs
                exact le_trans (framesLen_finalizePacket_le cur) (hcur ▸ hle)
              · exact ih _ [] 0 rfl (by omega) ps hrec fs hfs
            · exact absurd h (by simp)

/-! # The claims -/

set_option maxRecDepth 40000 in
/-- C1: every packet `packPacket` returns, and every packet in the list
`packRetransmission` returns, has serialized length at most the configured
maximum datagram size; and retransmitting a single STREAM frame whose data
is 1.5 times the configured maximum (here 150 bytes against a 100-byte
maximum) splits it into exactly two STREAM frames with contiguous,
non-overlapping, gapless offset ranges whose data lengths sum to the
original frame's data length. -/
theorem claim_C1 :
    (∀ (maxPacketSize sealOverhead headerLen : Nat) (pulled : List Frame)
        (pad : Bool) (p : PackedPacket),
      packPacket maxPacketSize sealOverhead headerLen pulled pad =
        .ok (some p) → p.rawLen ≤ maxPacketSize) ∧
    (∀ (maxPacketSize sealOverhead headerLen : Nat) (frames : List Frame)
        (ps : List PackedPacket),
      sealOverhead + headerLen ≤ maxPacketSize →
      packRetransmission maxPacketSize sealOverhead headerLen frames =
        .ok ps → ∀ p ∈ ps, p.rawLen ≤ maxPacketSize) ∧
    (packRetransmission 100 7 11
        [.stream ⟨42, 1337, false, List.replicate 150 97⟩] =
      .ok [⟨11, [.stream ⟨42, 1337, false, List.replicate 78 97⟩], 82, 7⟩,
           ⟨11, [.stream ⟨42, 1415, false, List.replicate 72 97⟩], 76, 7⟩] ∧
     1415 = 1337 + 78 ∧ 78 + 72 = 150 ∧ 150 = 100 * 3 / 2 ∧
     List.replicate 78 97 ++ List.replicate 72 97 =
       List.replicate 150 (97 : Nat)) := by
  refine ⟨?_, ?_, by decide⟩
  · intro maxPacketSize sealOverhead headerLen pulled pad p h
    unfold packPacket at h
    split at h
    · exact absurd h (by simp)
    · dsimp only at h
      split at h
      all_goals
        split at h
        · exact absurd h (by simp)
        · rename_i hbig
          injection h with h
          injection h with h
          subst h
          simp only [PackedPacket.rawLen]
          omega
  · intro maxPacketSize sealOverhead headerLen frames ps hsane h p hp
    unfold packRetransmission at h
    cases hrec : packRetrLoop (maxPacketSize - sealOverhead - headerLen)
        ((frames.map frameWeight).sum + 2) frames [] 0 with
    | error e =>
      rw [hrec] at h
      exact absurd h (by simp)
    | ok pss =>
      rw [hrec] at h
      injection h with h
      subst h
      simp only [List.mem_map] at hp
      obtain ⟨fs, hfs, hpeq⟩ := hp
      have hbound := packRetrLoop_packets_le
        (maxPacketSize - sealOverhead - headerLen)
        ((frames.map frameWeight).sum + 2) frames [] 0 rfl (by omega)
        pss hrec fs hfs
      subst hpeq
      simp only [PackedPacket.rawLen]
      omega

set_option maxRecDepth 4000 in
/-- C8: the connection-ID-length nibble decoder maps nibble 0 to length 0
and every nonzero nibble `n ≤ 15` to length `n + 3`, so lengths 1, 2 and 3
are unrepresentable; a length byte decodes its high nibble as the
destination length and its low nibble as the source length. -/
theorem claim_C8 :
    decodeSingleConnIDLen 0 = 0 ∧
    (∀ n : Nat, n < 16 → 1 ≤ n → decodeSingleConnIDLen n = n + 3) ∧
    (∀ n : Nat, n < 16 → decodeSingleConnIDLen n ≠ 1 ∧
      decodeSingleConnIDLen n ≠ 2 ∧ decodeSingleConnIDLen n ≠ 3) ∧
    (∀ b : Nat, b < 256 → decodeConnIDLen b =
      (decodeSingleConnIDLen (b / 16), decodeSingleConnIDLen (b % 16))) := by
  decide

/-- C9: `isFrameRetransmittable` is false exactly for ACK frames;
`stripNonRetransmittableFrames` returns exactly the subsequence of
retransmittable frames in their original order; and
`HasRetransmittableFrames` is true exactly when some frame of the list is
retransmittable. -/
theorem claim_C9 :
    (∀ f : Frame, isFrameRetransmittable f = false ↔ ∃ r, f = Frame.ack r) ∧
    (∀ fs : List Frame,
      stripNonRetransmittableFrames fs = fs.filter isFrameRetransmittable ∧
      (stripNonRetransmittableFrames fs).Sublist fs ∧
      (∀ f : Frame, f ∈ stripNonRetransmittableFrames fs ↔
        f ∈ fs ∧ isFrameRetransmittable f = true)) ∧
    (∀ fs : List Frame, HasRetransmittableFrames fs = true ↔
      ∃ f ∈ fs, isFrameRetransmittable f = true) := by
  refine ⟨?_, ?_, hasRetransmittableFrames_iff⟩
  · intro f; cases f <;> simp [isFrameRetransmittable]
  · intro fs
    refine ⟨stripNonRetransmittableFrames_eq_filter fs, ?_, ?_⟩
    · rw [stripNonRetransmittableFrames_eq_filter]
      exact List.filter_sublist fs
    · intro f
      rw [stripNonRetransmittableFrames_eq_filter]
      simp [List.mem_filter]

/-- C5: `handleTransportParameters` never increases the working maximum
datagram size: a larger supplied value leaves it unchanged, a smaller one
decreases it, and over any sequence of calls the size is monotonically
non-increasing. -/
theorem claim_C5 :
    (∀ current peerValue : Nat,
      handleTransportParameters current peerValue ≤ current) ∧
    (∀ current peerValue : Nat, current < peerValue →
      handleTransportParameters current peerValue = current) ∧
    (∀ current peerValue : Nat, peerValue < current →
      handleTransportParameters current peerValue = peerValue ∧
      handleTransportParameters current peerValue < current) ∧
    (∀ (values : List Nat) (current : Nat),
      List.foldl handleTransportParameters current values ≤ current) ∧
    (∀ (values : List Nat) (v current : Nat),
      List.foldl handleTransportParameters current (values ++ [v]) ≤
        List.foldl handleTransportParameters current values) := by
  refine ⟨fun c p => min_le_left c p, fun c p h => ?_, fun c p h => ⟨?_, ?_⟩,
    fun vs c => foldl_handleTransportParameters_le vs c, fun vs v c => ?_⟩
  · simp [handleTransportParameters, Nat.min_eq_left (Nat.le_of_lt h)]
  · simp [handleTransportParameters, Nat.min_eq_right (Nat.le_of_lt h)]
  · simpa [handleTransportParameters, Nat.min_eq_right (Nat.le_of_lt h)] using h
  · rw [List.foldl_append]
    exact min_le_left _ _

/-- C6: after the configured maximum count of consecutive packets that
contain only a non-retransmittable ACK, the next packed packet carries a
PING frame and the packet after that does not; and no PING is inserted
into a packet that already contains some other retransmittable frame
(the counter is reset instead). -/
theorem claim_C6 (maxAcks : Nat) (hpos : 0 < maxAcks) (a : Frame)
    (hack : isFrameRetransmittable a = false) :
    packRounds maxAcks 0 (List.replicate (maxAcks + 2) [a]) =
      (List.replicate maxAcks [a] ++ [[a, .ping]] ++ [[a]], 1) ∧
    (∀ (counter : Nat) (pulled : List Frame),
      HasRetransmittableFrames pulled = true →
      pingAdjust maxAcks counter pulled = (pulled, 0)) := by
  constructor
  · have h1 : List.replicate (maxAcks + 2) [a] =
        List.replicate maxAcks [a] ++ ([[a]] ++ [[a]]) := by
      rw [List.replicate_add]
      rfl
    rw [h1, packRounds_append,
      packRounds_ackOnly maxAcks a hack maxAcks 0 (by omega)]
    have hmid : pingAdjust maxAcks maxAcks [a] = ([a, .ping], 0) := by
      simp [pingAdjust, HasRetransmittableFrames, hack]
    have hlast : pingAdjust maxAcks 0 [a] = ([a], 1) :=
      pingAdjust_ackOnly_lt maxAcks 0 a hack hpos
    have htail : packRounds maxAcks (0 + maxAcks) ([[a]] ++ [[a]]) =
        ([[a, .ping]] ++ [[a]], 1) := by
      have h2 : ([[a]] ++ [[a]] : List (List Frame)) = [[a], [a]] := rfl
      rw [h2, Nat.zero_add]
      simp only [packRounds, hmid, hlast]
      rfl
    rw [htail]
    simp
  · intro counter pulled h
    have hne : pulled.isEmpty = false := by
      cases pulled with
      | nil => exact absurd h (by simp [HasRetransmittableFrames])
      | cons x xs => rfl
    simp [pingAdjust, hne, h]

/-- C4: parsing the datagram produced by `composeVersionNegotiation`
recovers the destination connection ID, the source connection ID, and a
supported-version list containing the two supplied versions plus exactly
one additional injected (greased) version; and parsing a
version-negotiation datagram whose version list is empty yields the
`InvalidVersionNegotiationPacket` error. -/
theorem claim_C4 (supported : List Nat) (connIDLen : Nat)
    (dest src : List Nat) (v1 v2 : Nat)
    (hd : dest.length = 0 ∨ (4 ≤ dest.length ∧ dest.length ≤ 18))
    (hs : src.length = 0 ∨ (4 ≤ src.length ∧ src.length ≤ 18))
    (h1 : v1 < 4294967296) (h2 : v2 < 4294967296) :
    parseHeaderImpl supported connIDLen
        (composeVersionNegotiation dest src [v1, v2]) =
      .ok ({ Version := 0, SrcConnectionID := src, DestConnectionID := dest,
             IsLongHeader := true,
             SupportedVersions := [v1, v2, reservedVersion],
             typeByte := 0x80 }, []) ∧
    v1 ∈ [v1, v2, reservedVersion] ∧ v2 ∈ [v1, v2, reservedVersion] ∧
    ([v1, v2, reservedVersion] : List Nat).length = 3 ∧
    parseHeaderImpl supported connIDLen
        (0x80 :: (be32 0 ++ encodeConnIDLen dest.length src.length ::
          (dest ++ (src ++ [])))) =
      .error (.invalidVersionNegotiation "empty version list") := by
  have hdec : decodeConnIDLen (encodeConnIDLen dest.length src.length) =
      (dest.length, src.length) :=
    decodeConnIDLen_encodeConnIDLen _ _ hd hs
  refine ⟨?_, by simp, by simp, by simp, ?_⟩
  · unfold composeVersionNegotiation
    have hshape : be32 0 ++ [encodeConnIDLen dest.length src.length]
        ++ dest ++ src ++ encodeVersions ([v1, v2] ++ [reservedVersion]) =
        be32 0 ++ encodeConnIDLen dest.length src.length ::
          (dest ++ (src ++ encodeVersions [v1, v2, reservedVersion])) := by
      simp [List.append_assoc]
    simp only [parseHeaderImpl]
    rw [if_pos (by norm_num), hshape,
      parseLongHeader_decompose supported _ 0 _ dest src _ (by norm_num)
        (by rw [hdec]) (by rw [hdec])]
    unfold parseLongHeaderAfterIDs
    rw [if_pos rfl,
      parseVNP_encodeVersions _ v1 [v2, reservedVersion] ?_]
    · rfl
    · intro w hw
      simp only [List.mem_cons, List.not_mem_nil, or_false] at hw
      rcases hw with rfl | rfl | rfl
      · exact h1
      · exact h2
      · decide
  · have hshape : (be32 0 ++ encodeConnIDLen dest.length src.length ::
        (dest ++ (src ++ []))) =
        be32 0 ++ encodeConnIDLen dest.length src.length ::
          (dest ++ (src ++ ([] : List Nat))) := rfl
    simp only [parseHeaderImpl]
    rw [if_pos (by norm_num), hshape,
      parseLongHeader_decompose supported _ 0 _ dest src _ (by norm_num)
        (by rw [hdec]) (by rw [hdec])]
    unfold parseLongHeaderAfterIDs
    rw [if_pos rfl]
    rfl

/-- C2: after `retire(id)`, a datagram for `id` arriving before the
configured retirement delay has elapsed is still delivered to the
registered handler; one arriving after the delay has elapsed is dropped
with an "unexpected connection ID" error; and the reset token registered
for `id` is purged as well, so a reset-shaped datagram carrying it is
dropped too. -/
theorem claim_C2 (handler d t0 n1 n2 : Nat)
    (hbefore : n1 < t0 + d) (hafter : t0 + d ≤ n2) :
    handlePacket [0x01020304] (c2State handler d t0) n1 c2Packet =
      .delivered handler [] ∧
    handlePacket [0x01020304] (c2State handler d t0) n2 c2Packet =
      .dropped (.unexpectedConnectionID c2ConnID) ∧
    ((c2State handler d t0).sweep n2).resetTokens = [] ∧
    handlePacket [0x01020304] (c2State handler d t0) n2 c2ResetPacket =
      .dropped (.unexpectedShortHeaderConnectionID (List.replicate 5 0)) := by
  have hnle : ¬(t0 + d ≤ n1) := by omega
  have hs1 : (c2State handler d t0).sweep n1 =
      { handlers := [(c2ConnID, handler)],
        resetTokens := [(c2Token, c2ConnID, handler)],
        retired := [(c2ConnID, t0 + d)], server := none, connIDLen := 5,
        delay := d } := by
    unfold c2State PHMState.addWithResetToken PHMState.retire PHMState.sweep
      retiredExpired
    simp [List.filter_cons, List.any_cons, List.any_nil, hnle]
  have hs2 : (c2State handler d t0).sweep n2 =
      { handlers := [], resetTokens := [],
        retired := [(c2ConnID, t0 + d)], server := none, connIDLen := 5,
        delay := d } := by
    unfold c2State PHMState.addWithResetToken PHMState.retire PHMState.sweep
      retiredExpired
    simp [List.filter_cons, List.any_cons, List.any_nil, hafter, c2ConnID,
      c2Token]
  refine ⟨?_, ?_, ?_, ?_⟩
  · unfold handlePacket
    rw [hs1]
    rfl
  · unfold handlePacket
    rw [hs2]
    rfl
  · rw [hs2]
  · unfold handlePacket
    rw [hs2]
    rfl

theorem claim_C2_witness :
    handlePacket [0x01020304] (c2State 7 100 1000) 1099 c2Packet =
      .delivered 7 [] ∧
    handlePacket [0x01020304] (c2State 7 100 1000) 1100 c2Packet =
      .dropped (.unexpectedConnectionID c2ConnID) ∧
    ((c2State 7 100 1000).sweep 1100).resetTokens = [] ∧
    handlePacket [0x01020304] (c2State 7 100 1000) 1100 c2ResetPacket =
      .dropped (.unexpectedShortHeaderConnectionID (List.replicate 5 0)) :=
  claim_C2 7 100 1000 1099 1100 (by decide) (by decide)

/-- C3: a datagram whose destination connection ID has no registered owner
but whose trailing 16 bytes equal a token previously registered via
`addWithResetToken` causes `handlePacket` to call `destroy` exactly once
on the handler owning that token — the result is the single `destroyed`
outcome with the distinguished "received a stateless reset" error — and
the datagram is not treated as a parse failure. -/
theorem claim_C3 (supported : List Nat) (s : PHMState) (now : Nat)
    (data : List Nat) (h : Header) (rest : List Nat) (owner : Nat)
    (hparse : parseHeaderImpl supported s.connIDLen data = .ok (h, rest))
    (hnoowner : lookupHandler (s.sweep now).handlers h.DestConnectionID
      = none)
    (hsize : MinStatelessResetSize ≤ data.length)
    (htok : lookupToken (s.sweep now).resetTokens
      (data.drop (data.length - 16)) = some owner) :
    handlePacket supported s now data =
      .destroyed owner "received a stateless reset" ∧
    ∀ e : PErr, handlePacket supported s now data ≠
      .dropped (.parseError e) := by
  have hmain : handlePacket supported s now data =
      .destroyed owner "received a stateless reset" := by
    unfold handlePacket handlePacketSwept
    rw [show (s.sweep now).connIDLen = s.connIDLen from rfl, hparse]
    dsimp only
    rw [hnoowner]
    dsimp only
    rw [if_pos hsize, htok]
  refine ⟨hmain, fun e => ?_⟩
  rw [hmain]
  simp

theorem claim_C3_witness :
    handlePacket [0x01020304]
        (PHMState.addWithResetToken
          { handlers := [], resetTokens := [], retired := [], server := none,
            connIDLen := 5, delay := 0 } [0xde, 0xca, 0xfb, 0xad] 7 c2Token)
        0 ((0x40 :: List.replicate 50 0) ++ c2Token) =
      .destroyed 7 "received a stateless reset" ∧
    ∀ e : PErr, handlePacket [0x01020304]
        (PHMState.addWithResetToken
          { handlers := [], resetTokens := [], retired := [], server := none,
            connIDLen := 5, delay := 0 } [0xde, 0xca, 0xfb, 0xad] 7 c2Token)
        0 ((0x40 :: List.replicate 50 0) ++ c2Token) ≠
      .dropped (.parseError e) :=
  claim_C3 [0x01020304]
    (PHMState.addWithResetToken
      { handlers := [], resetTokens := [], retired := [], server := none,
        connIDLen := 5, delay := 0 } [0xde, 0xca, 0xfb, 0xad] 7 c2Token)
    0 ((0x40 :: List.replicate 50 0) ++ c2Token)
    { IsLongHeader := false, DestConnectionID := List.replicate 5 0,
      typeByte := 0x40 }
    (List.replicate 45 0 ++ c2Token) 7 (by decide) (by decide) (by decide)
    (by decide)

/-- C10: for a routed long-header datagram, `handlePacket` enforces the
header's `Length` field: if the bytes following the `Length` field are
fewer than `Length`, it drops with an error naming the actual and the
expected byte counts; if `Length` is smaller than the encoded
packet-number length, it drops with an error naming both; and when the
datagram carries at least `Length` bytes, the payload delivered to the
session is truncated to exactly `Length` minus the packet-number length
bytes. -/
theorem claim_C10 (supported : List Nat) (s : PHMState) (now : Nat)
    (data : List Nat) (h : Header) (rest : List Nat) (handler : Nat)
    (pn pnLen : Nat) (payload : List Nat)
    (hparse : parseHeaderImpl supported s.connIDLen data = .ok (h, rest))
    (hlong : h.IsLongHeader = true)
    (howner : lookupHandler (s.sweep now).handlers h.DestConnectionID
      = some handler)
    (hpn : readVarIntPacketNumber rest = .ok (pn, pnLen, payload)) :
    (pnLen ≤ h.Length → payload.length + pnLen < h.Length →
      handlePacket supported s now data =
        .dropped (.packetLengthTooSmall (payload.length + pnLen)
          h.Length)) ∧
    (h.Length < pnLen →
      handlePacket supported s now data =
        .dropped (.packetLengthSmallerThanPacketNumber h.Length pnLen)) ∧
    (pnLen ≤ h.Length → h.Length ≤ payload.length + pnLen →
      handlePacket supported s now data =
        .delivered handler (payload.take (h.Length - pnLen)) ∧
      (payload.take (h.Length - pnLen)).length = h.Length - pnLen) := by
  have hroute : handlePacket supported s now data =
      (match parseRestAndCheckLength h rest with
       | .error e => .dropped e
       | .ok pl => .delivered handler pl) := by
    unfold handlePacket handlePacketSwept
    rw [show (s.sweep now).connIDLen = s.connIDLen from rfl, hparse]
    dsimp only
    rw [howner]
  have hcheck : parseRestAndCheckLength h rest =
      (if h.Length < pnLen then
        .error (.packetLengthSmallerThanPacketNumber h.Length pnLen)
      else if payload.length + pnLen < h.Length then
        .error (.packetLengthTooSmall (payload.length + pnLen) h.Length)
      else .ok (payload.take (h.Length - pnLen))) := by
    unfold parseRestAndCheckLength
    rw [hpn]
    dsimp only
    rw [hlong]
    rfl
  refine ⟨fun hple hsmall => ?_, fun hlt => ?_, fun hple hge => ⟨?_, ?_⟩⟩
  · rw [hroute, hcheck, if_neg (by omega), if_pos hsmall]
  · rw [hroute, hcheck, if_pos hlt]
  · rw [hroute, hcheck, if_neg (by omega), if_neg (by omega)]
  · simp [List.length_take]
    omega

set_option maxRecDepth 40000 in
theorem claim_C10_witness :
    (1 ≤ (456 : Nat) → (455 : Nat) + 1 < 456 →
      handlePacket [0x01020304]
          (PHMState.add
            { handlers := [], resetTokens := [], retired := [],
              server := none, connIDLen := 5, delay := 0 } c2ConnID 7)
          0 (([0xFD, 1, 2, 3, 4, 0x50] ++ c2ConnID ++ varIntEnc 456
            ++ [0x00]) ++ List.replicate 455 9) =
        .dropped (.packetLengthTooSmall (455 + 1) 456)) ∧
    ((456 : Nat) < 1 →
      handlePacket [0x01020304]
          (PHMState.add
            { handlers := [], resetTokens := [], retired := [],
              server := none, connIDLen := 5, delay := 0 } c2ConnID 7)
          0 (([0xFD, 1, 2, 3, 4, 0x50] ++ c2ConnID ++ varIntEnc 456
            ++ [0x00]) ++ List.replicate 455 9) =
        .dropped (.packetLengthSmallerThanPacketNumber 456 1)) ∧
    (1 ≤ (456 : Nat) → (456 : Nat) ≤ 455 + 1 →
      handlePacket [0x01020304]
          (PHMState.add
            { handlers := [], resetTokens := [], retired := [],
              server := none, connIDLen := 5, delay := 0 } c2ConnID 7)
          0 (([0xFD, 1, 2, 3, 4, 0x50] ++ c2ConnID ++ varIntEnc 456
            ++ [0x00]) ++ List.replicate 455 9) =
        .delivered 7 ((List.replicate 455 (9 : Nat)).take (456 - 1)) ∧
      ((List.replicate 455 (9 : Nat)).take (456 - 1)).length = 456 - 1) :=
  claim_C10 [0x01020304]
    (PHMState.add
      { handlers := [], resetTokens := [], retired := [], server := none,
        connIDLen := 5, delay := 0 } c2ConnID 7)
    0 (([0xFD, 1, 2, 3, 4, 0x50] ++ c2ConnID ++ varIntEnc 456
      ++ [0x00]) ++ List.replicate 455 9)
    { Version := 0x01020304, DestConnectionID := c2ConnID,
      SrcConnectionID := [], IsLongHeader := true,
      PacketType := PacketTypeHandshake, Length := 456, typeByte := 0xFD }
    ([0x00] ++ List.replicate 455 9) 7 0 1 (List.replicate 455 9)
    (by decide) (by decide) (by decide) (by decide)

theorem claim_C4_witness :
    parseHeaderImpl [0x01020304] 0
        (composeVersionNegotiation [9, 8, 7, 6, 5, 4, 3, 2, 1]
          [1, 2, 3, 4, 5, 6, 7, 8, 9, 10, 11, 12]
          [0x22334455, 0x33445566]) =
      .ok ({ Version := 0,
             SrcConnectionID := [1, 2, 3, 4, 5, 6, 7, 8, 9, 10, 11, 12],
             DestConnectionID := [9, 8, 7, 6, 5, 4, 3, 2, 1],
             IsLongHeader := true,
             SupportedVersions := [0x22334455, 0x33445566, reservedVersion],
             typeByte := 0x80 }, []) ∧
    0x22334455 ∈ [0x22334455, 0x33445566, reservedVersion] ∧
    0x33445566 ∈ [0x22334455, 0x33445566, reservedVersion] ∧
    ([0x22334455, 0x33445566, reservedVersion] : List Nat).length = 3 ∧
    parseHeaderImpl [0x01020304] 0
        (0x80 :: (be32 0 ++ encodeConnIDLen
            ([9, 8, 7, 6, 5, 4, 3, 2, 1] : List Nat).length
            ([1, 2, 3, 4, 5, 6, 7, 8, 9, 10, 11, 12] : List Nat).length ::
          ([9, 8, 7, 6, 5, 4, 3, 2, 1]
            ++ ([1, 2, 3, 4, 5, 6, 7, 8, 9, 10, 11, 12] ++ [])))) =
      .error (.invalidVersionNegotiation "empty version list") :=
  claim_C4 [0x01020304] 0 [9, 8, 7, 6, 5, 4, 3, 2, 1]
    [1, 2, 3, 4, 5, 6, 7, 8, 9, 10, 11, 12] 0x22334455 0x33445566
    (by decide) (by decide) (by decide) (by decide)

/-- C7: when parsing a long-header Initial packet, a declared
variable-length-integer token length that exceeds the bytes remaining in
the buffer fails with the truncated-input (`eof`) error; a well-formed
Initial header parses fully; and every strict prefix of such a valid
header fails with that same `eof` error, propagated verbatim and never
wrapped in another error. -/
theorem claim_C7 (supported : List Nat) (connIDLen v cil tokenLen plen : Nat)
    (dest src token suffix : List Nat)
    (hv32 : v < 4294967296) (hv0 : v ≠ 0) (hsv : v ∈ supported)
    (hdl : dest.length = (decodeConnIDLen cil).1)
    (hsl : src.length = (decodeConnIDLen cil).2)
    (htk : token.length = tokenLen)
    (htl : tokenLen < 4611686018427387904)
    (hpl : plen < 4611686018427387904)
    (hsuf : suffix.length < tokenLen) :
    parseHeaderImpl supported connIDLen
        (0xff :: (be32 v ++ cil :: (dest ++ (src
          ++ (varIntEnc tokenLen ++ suffix))))) = .error .eof ∧
    parseHeaderImpl supported connIDLen
        (0xff :: (be32 v ++ cil :: (dest ++ (src ++ (varIntEnc tokenLen
          ++ (token ++ varIntEnc plen)))))) =
      .ok ({ Version := v, SrcConnectionID := src, DestConnectionID := dest,
             IsLongHeader := true, PacketType := PacketTypeInitial,
             Length := plen, Token := token, typeByte := 0xff }, []) ∧
    (∀ i, i < (0xff :: (be32 v ++ cil :: (dest ++ (src
          ++ (varIntEnc tokenLen ++ (token ++ varIntEnc plen)))))).length →
      parseHeaderImpl supported connIDLen
          ((0xff :: (be32 v ++ cil :: (dest ++ (src ++ (varIntEnc tokenLen
            ++ (token ++ varIntEnc plen)))))).take i) = .error .eof) := by
  refine ⟨?_, ?_, ?_⟩
  · simp only [parseHeaderImpl]
    rw [if_pos (by norm_num),
      parseLongHeader_decompose supported _ v cil dest src _ hv32 hdl hsl,
      parseLongHeaderAfterIDs_initial supported _ _ hv0 hsv (by simp [PacketTypeInitial]),
      readVarInt_enc tokenLen htl]
    dsimp only
    rw [if_pos hsuf]
  · simp only [parseHeaderImpl]
    rw [if_pos (by norm_num),
      parseLongHeader_decompose supported _ v cil dest src _ hv32 hdl hsl,
      parseLongHeaderAfterIDs_initial supported _ _ hv0 hsv (by simp [PacketTypeInitial]),
      readVarInt_enc tokenLen htl]
    dsimp only
    rw [if_neg (by simp [List.length_append, htk]),
      List.take_left' htk, List.drop_left' htk,
      ← List.append_nil (varIntEnc plen), readVarInt_enc plen hpl]
    rfl
  · intro i hi
    cases i with
    | zero => rfl
    | succ k =>
      rw [List.take_succ_cons]
      simp only [parseHeaderImpl]
      rw [if_pos (by norm_num)]
      exact parseLongHeader_initial_take_eof supported _ v cil tokenLen plen
        dest src token hv32 hv0 hsv hdl hsl htk htl rfl k
        (by simpa using hi)

theorem claim_C7_witness :
    parseHeaderImpl [0x01020304] 0
        (0xff :: (be32 0x01020304 ++ 0x61 :: ([9, 8, 7, 6, 5, 4, 3, 2, 1]
          ++ ([0xde, 0xad, 0xbe, 0xef]
            ++ (varIntEnc 6 ++ [1, 2, 3]))))) = .error .eof ∧
    parseHeaderImpl [0x01020304] 0
        (0xff :: (be32 0x01020304 ++ 0x61 :: ([9, 8, 7, 6, 5, 4, 3, 2, 1]
          ++ ([0xde, 0xad, 0xbe, 0xef] ++ (varIntEnc 6
            ++ ([102, 111, 111, 98, 97, 114] ++ varIntEnc 0x1337)))))) =
      .ok ({ Version := 0x01020304,
             SrcConnectionID := [0xde, 0xad, 0xbe, 0xef],
             DestConnectionID := [9, 8, 7, 6, 5, 4, 3, 2, 1],
             IsLongHeader := true, PacketType := PacketTypeInitial,
             Length := 0x1337, Token := [102, 111, 111, 98, 97, 114],
             typeByte := 0xff }, []) ∧
    (∀ i, i < (0xff :: (be32 0x01020304 ++ 0x61 ::
          ([9, 8, 7, 6, 5, 4, 3, 2, 1] ++ ([0xde, 0xad, 0xbe, 0xef]
            ++ (varIntEnc 6 ++ ([102, 111, 111, 98, 97, 114]
              ++ varIntEnc 0x1337)))))).length →
      parseHeaderImpl [0x01020304] 0
          ((0xff :: (be32 0x01020304 ++ 0x61 ::
            ([9, 8, 7, 6, 5, 4, 3, 2, 1] ++ ([0xde, 0xad, 0xbe, 0xef]
              ++ (varIntEnc 6 ++ ([102, 111, 111, 98, 97, 114]
                ++ varIntEnc 0x1337)))))).take i) = .error .eof) :=
  claim_C7 [0x01020304] 0 0x01020304 0x61 6 0x1337
    [9, 8, 7, 6, 5, 4, 3, 2, 1] [0xde, 0xad, 0xbe, 0xef]
    [102, 111, 111, 98, 97, 114] [1, 2, 3] (by decide) (by decide)
    (by decide) (by decide) (by decide) (by decide) (by decide) (by decide)
    (by decide)

theorem claim_C6_witness :
    packRounds 19 0 (List.replicate (19 + 2) [Frame.ack [(1, 1)]]) =
      (List.replicate 19 [Frame.ack [(1, 1)]] ++
        [[Frame.ack [(1, 1)], .ping]] ++ [[Frame.ack [(1, 1)]]], 1) ∧
    (∀ (counter : Nat) (pulled : List Frame),
      HasRetransmittableFrames pulled = true →
      pingAdjust 19 counter pulled = (pulled, 0)) :=
  claim_C6 19 (by decide) (Frame.ack [(1, 1)]) (by decide)

end Quic
